import Mathlib

/-!
Shallow embedding of the SPSC ring-buffer channel from `src/lib/Channel.hpp`.

The shared state `Data<T, Size>` is modelled by `ChannelState`:
* `isOpen`  — the `open` flag (`bool open{true}`),
* `head`, `tail` — the ring indices (`size_t head{0}; size_t tail{0}`),
* `buffer` — the fixed array `std::array<T, Size> buffer` as a list whose
  length is the capacity (`buffer.length` plays the role of `buffer.size()`),
* `read`, `write` — the counters of the two counting semaphores
  (`read{0}`, `write{Size}`).

Each C++ member function is translated into a pure state-passing function.
Semaphore `try_acquire` becomes a zero test plus decrement, `acquire` is
modelled by a decrement that is only meaningful when the trace semantics
(`enabled`) guarantees the counter is positive at that point, and `release`
is an increment.  `std::move` out of a slot leaves the slot's value in place
(the moved-from object persists), so `getHead` does not modify the buffer.
-/

structure ChannelState (α : Type) where
  isOpen : Bool
  head : Nat
  tail : Nat
  buffer : List α
  read : Nat
  write : Nat
  deriving DecidableEq, Repr

namespace Channel

variable {α : Type}

/-- The factory `create_channel<T, Size>`: `make_shared<Data<T, Size>>()` value-initialises
the shared state: `open = true`, `head = tail = 0`, the semaphore counters at
`0` and `Size`, and a default-initialised buffer of `Size` elements (`d` is the
default element of `T`). -/
def create (n : Nat) (d : α) : ChannelState α :=
  ⟨true, 0, 0, List.replicate n d, 0, n⟩

/-- Setting `internal->open = false`, the body of both `close()` methods once the
`internal != nullptr` guard has passed. -/
def closeState (s : ChannelState α) : ChannelState α :=
  { s with isOpen := false }

/-- Method `ReceiverChannel::close()`: `if (internal != nullptr) internal->open = false;`.
The `owns` flag stands for `internal != nullptr`. -/
def closeReceiver (owns : Bool) (s : ChannelState α) : ChannelState α :=
  if owns then closeState s else s

/-- Method `SenderChannel::close()`: same body as the receiver's `close`. -/
def closeSender (owns : Bool) (s : ChannelState α) : ChannelState α :=
  if owns then closeState s else s

/-- Move constructor `ReceiverChannel(ReceiverChannel &&other)`: the new handle takes
`other.internal` and `other.internal` becomes `nullptr`; the shared state is
not touched.  Returns `((new handle, moved-from handle), shared state)`. -/
def moveReceiver (owns : Bool) (s : ChannelState α) : (Bool × Bool) × ChannelState α :=
  ((owns, false), s)

/-- Move constructor `SenderChannel(SenderChannel &&other)`: identical move behaviour. -/
def moveSender (owns : Bool) (s : ChannelState α) : (Bool × Bool) × ChannelState α :=
  ((owns, false), s)

/-- Method `ReceiverChannel::getHead()`: compute `new_head = (head + 1) % buffer.size()`,
move the value out of `buffer[head]`, store `new_head` into `head`, and return
the value.  Moving out of the slot leaves the buffer contents unchanged. -/
def getHead [Inhabited α] (s : ChannelState α) : α × ChannelState α :=
  let newHead := (s.head + 1) % s.buffer.length
  let tmp := s.buffer.getD s.head default
  (tmp, { s with head := newHead })

/-- Method `ReceiverChannel::try_receive()`:
`if (!is_open() || !internal->read.try_acquire()) return std::nullopt;`
then `return std::optional<T>(std::move(getHead()));`.
`try_acquire` fails exactly when the counter is zero, otherwise it decrements;
note that, unlike `receive`, this function performs no `write.release()`. -/
def tryReceive [Inhabited α] (s : ChannelState α) : Option α × ChannelState α :=
  if !s.isOpen || s.read == 0 then (none, s)
  else
    let p := getHead { s with read := s.read - 1 }
    (some p.1, p.2)

/-- Method `ReceiverChannel::receive()`: `read.acquire(); tmp = getHead();
write.release(); return tmp;`.  The blocking `acquire` is modelled as the
decrement it performs on completion; the trace semantics only lets this
operation run when `read` is positive. -/
def receive [Inhabited α] (s : ChannelState α) : α × ChannelState α :=
  let p := getHead { s with read := s.read - 1 }
  (p.1, { p.2 with write := p.2.write + 1 })

/-- Method `SenderChannel::writeTail(T data)`: `buffer[tail] = data;
tail = (tail + 1) % buffer.size();`. -/
def writeTail (v : α) (s : ChannelState α) : ChannelState α :=
  { s with buffer := s.buffer.set s.tail v,
           tail := (s.tail + 1) % s.buffer.length }

/-- Method `SenderChannel::try_send(T data)`:
`if (!is_open() || !internal->write.try_acquire()) return false;`
then `writeTail(data); read.release(); return true;`. -/
def trySend [Inhabited α] (v : α) (s : ChannelState α) : Bool × ChannelState α :=
  if !s.isOpen || s.write == 0 then (false, s)
  else
    let s1 := writeTail v { s with write := s.write - 1 }
    (true, { s1 with read := s1.read + 1 })

/-- Method `SenderChannel::send(T data)`: `write.acquire(); writeTail(data);
read.release();`.  As with `receive`, the blocking `acquire` completes only
when `write` is positive, which the trace semantics enforces. -/
def send (v : α) (s : ChannelState α) : ChannelState α :=
  let s1 := writeTail v { s with write := s.write - 1 }
  { s1 with read := s1.read + 1 }

/-- One complete operation on the channel, by either handle. -/
inductive ChanOp (α : Type) where
  | send : α → ChanOp α
  | trySend : α → ChanOp α
  | receive : ChanOp α
  | tryReceive : ChanOp α
  | close : ChanOp α
  deriving DecidableEq, Repr

/-- Run a sequence of complete operations, returning the final state, the list
of values enqueued by successful sends (in order), and the list of values
returned by successful receives (in order). -/
def runOps [Inhabited α] : ChannelState α → List (ChanOp α) → ChannelState α × List α × List α
  | s, [] => (s, [], [])
  | s, ChanOp.send v :: rest =>
      let r := runOps (send v s) rest
      (r.1, v :: r.2.1, r.2.2)
  | s, ChanOp.trySend v :: rest =>
      let p := trySend v s
      let r := runOps p.2 rest
      (r.1, if p.1 then v :: r.2.1 else r.2.1, r.2.2)
  | s, ChanOp.receive :: rest =>
      let p := receive s
      let r := runOps p.2 rest
      (r.1, r.2.1, p.1 :: r.2.2)
  | s, ChanOp.tryReceive :: rest =>
      let p := tryReceive s
      let r := runOps p.2 rest
      (r.1, r.2.1, match p.1 with | some v => v :: r.2.2 | none => r.2.2)
  | s, ChanOp.close :: rest => runOps (closeState s) rest

/-- A trace is enabled when every blocking operation in it finds its semaphore
counter positive at the moment it runs, i.e. every `send`/`receive` in the
interleaving is an operation that completes. -/
def enabled [Inhabited α] : ChannelState α → List (ChanOp α) → Bool
  | _, [] => true
  | s, ChanOp.send v :: rest => decide (0 < s.write) && enabled (send v s) rest
  | s, ChanOp.trySend v :: rest => enabled (trySend v s).2 rest
  | s, ChanOp.receive :: rest => decide (0 < s.read) && enabled (receive s).2 rest
  | s, ChanOp.tryReceive :: rest => enabled (tryReceive s).2 rest
  | s, ChanOp.close :: rest => enabled (closeState s) rest

/-- A sequence of `close()` calls, each from the receiver (`true`) or the
sender (`false`) handle, both owning their shared state. -/
def closeSeq (s : ChannelState α) : List Bool → ChannelState α
  | [] => s
  | b :: rest => closeSeq (if b then closeReceiver true s else closeSender true s) rest

end Channel

namespace Channel

variable {α : Type}

theorem send_eq [Inhabited α] (v : α) (s : ChannelState α) :
    send v s = ⟨s.isOpen, s.head, (s.tail + 1) % s.buffer.length,
      s.buffer.set s.tail v, s.read + 1, s.write - 1⟩ := rfl

theorem receive_eq [Inhabited α] (s : ChannelState α) :
    receive s = (s.buffer.getD s.head default,
      ⟨s.isOpen, (s.head + 1) % s.buffer.length, s.tail, s.buffer,
        s.read - 1, s.write + 1⟩) := rfl

theorem trySend_eq [Inhabited α] (v : α) (s : ChannelState α) :
    trySend v s = if !s.isOpen || s.write == 0 then (false, s)
      else (true, send v s) := rfl

theorem tryReceive_eq [Inhabited α] (s : ChannelState α) :
    tryReceive s = if !s.isOpen || s.read == 0 then (none, s)
      else (some (s.buffer.getD s.head default),
        ⟨s.isOpen, (s.head + 1) % s.buffer.length, s.tail, s.buffer,
          s.read - 1, s.write⟩) := rfl

@[simp] theorem isOpen_send [Inhabited α] (v : α) (s : ChannelState α) :
    (send v s).isOpen = s.isOpen := rfl

@[simp] theorem isOpen_receive [Inhabited α] (s : ChannelState α) :
    ((receive s).2).isOpen = s.isOpen := rfl

@[simp] theorem isOpen_closeState (s : ChannelState α) :
    (closeState s).isOpen = false := rfl

theorem isOpen_trySend [Inhabited α] (v : α) (s : ChannelState α) :
    ((trySend v s).2).isOpen = s.isOpen := by
  rw [trySend_eq]; split <;> rfl

theorem isOpen_tryReceive [Inhabited α] (s : ChannelState α) :
    ((tryReceive s).2).isOpen = s.isOpen := by
  rw [tryReceive_eq]; split <;> rfl

theorem trySend_of_closed [Inhabited α] (v : α) (s : ChannelState α)
    (h : s.isOpen = false) : trySend v s = (false, s) := by
  rw [trySend_eq, h]; rfl

theorem tryReceive_of_closed [Inhabited α] (s : ChannelState α)
    (h : s.isOpen = false) : tryReceive s = (none, s) := by
  rw [tryReceive_eq, h]; rfl

theorem runOps_closed [Inhabited α] :
    ∀ (ops : List (ChanOp α)) (s : ChannelState α), s.isOpen = false →
      ((runOps s ops).1).isOpen = false
  | [], s, h => h
  | ChanOp.send v :: rest, s, h => by
      simpa [runOps] using runOps_closed rest (send v s) (by simpa using h)
  | ChanOp.trySend v :: rest, s, h => by
      simpa [runOps] using runOps_closed rest (trySend v s).2
        (by rw [isOpen_trySend]; exact h)
  | ChanOp.receive :: rest, s, h => by
      simpa [runOps] using runOps_closed rest (receive s).2 (by simpa using h)
  | ChanOp.tryReceive :: rest, s, h => by
      simpa [runOps] using runOps_closed rest (tryReceive s).2
        (by rw [isOpen_tryReceive]; exact h)
  | ChanOp.close :: rest, s, h => by
      simpa [runOps] using runOps_closed rest (closeState s) rfl

end Channel

open Channel

/-- C5: the open flag transitions one way only.  A `close` from either owning
handle produces `closeState s`; every state reached from it by any further
sequence of complete operations still has the flag `false`, and in every such
state `try_send` returns `false` and `try_receive` returns `empty`, each
leaving the state unchanged. -/
theorem close_terminal [Inhabited α] (s : ChannelState α) (ops : List (ChanOp α)) (v : α) :
    closeReceiver true s = closeState s ∧
    closeSender true s = closeState s ∧
    ((runOps (closeState s) ops).1).isOpen = false ∧
    trySend v (runOps (closeState s) ops).1 = (false, (runOps (closeState s) ops).1) ∧
    tryReceive (runOps (closeState s) ops).1 = (none, (runOps (closeState s) ops).1) := by
  have hc : ((runOps (closeState s) ops).1).isOpen = false :=
    runOps_closed ops (closeState s) rfl
  exact ⟨rfl, rfl, hc, trySend_of_closed v _ hc, tryReceive_of_closed _ hc⟩

/-- C6: `close()` from either handle sets the open flag to `false` and changes
nothing else (`head`, `tail`, `buffer`, `read`, `write` untouched), and any
nonempty sequence of `close()` calls from either or both handles, in any
order, yields the same state as a single `close()`. -/
theorem close_frame_idempotent (s : ChannelState α) (l : List Bool) (hl : l ≠ []) :
    closeSeq s l = closeState s ∧
    closeReceiver true s = closeState s ∧
    closeSender true s = closeState s ∧
    (closeState s).head = s.head ∧
    (closeState s).tail = s.tail ∧
    (closeState s).buffer = s.buffer ∧
    (closeState s).read = s.read ∧
    (closeState s).write = s.write := by
  have key : ∀ (l' : List Bool) (t : ChannelState α), closeSeq (closeState t) l' = closeState t := by
    intro l'
    induction l' with
    | nil => intro t; rfl
    | cons b rest ih =>
        intro t
        have hb : (if b then closeReceiver true (closeState t) else closeSender true (closeState t))
            = closeState t := by
          cases b <;> rfl
        calc closeSeq (closeState t) (b :: rest)
            = closeSeq (closeState t) rest := by rw [closeSeq, hb]
          _ = closeState t := ih t
  refine ⟨?_, rfl, rfl, rfl, rfl, rfl, rfl, rfl⟩
  match l, hl with
  | b :: rest, _ =>
    have hb : (if b then closeReceiver true s else closeSender true s) = closeState s := by
      cases b <;> rfl
    rw [closeSeq, hb, key]

/-- C6 witness: a concrete state and a two-element close sequence. -/
theorem close_frame_idempotent_witness :
    (([true, false] : List Bool) ≠ []) ∧
    (closeSeq (⟨true, 0, 0, [7, 7], 0, 2⟩ : ChannelState Nat) [true, false]
        = closeState ⟨true, 0, 0, [7, 7], 0, 2⟩ ∧
      closeReceiver true (⟨true, 0, 0, [7, 7], 0, 2⟩ : ChannelState Nat)
        = closeState ⟨true, 0, 0, [7, 7], 0, 2⟩ ∧
      closeSender true (⟨true, 0, 0, [7, 7], 0, 2⟩ : ChannelState Nat)
        = closeState ⟨true, 0, 0, [7, 7], 0, 2⟩ ∧
      (closeState (⟨true, 0, 0, [7, 7], 0, 2⟩ : ChannelState Nat)).head = 0 ∧
      (closeState (⟨true, 0, 0, [7, 7], 0, 2⟩ : ChannelState Nat)).tail = 0 ∧
      (closeState (⟨true, 0, 0, [7, 7], 0, 2⟩ : ChannelState Nat)).buffer = [7, 7] ∧
      (closeState (⟨true, 0, 0, [7, 7], 0, 2⟩ : ChannelState Nat)).read = 0 ∧
      (closeState (⟨true, 0, 0, [7, 7], 0, 2⟩ : ChannelState Nat)).write = 2) :=
  ⟨by decide, close_frame_idempotent ⟨true, 0, 0, [7, 7], 0, 2⟩ [true, false] (by decide)⟩

/-- C8: `create_channel` builds the shared state with `open = true`,
`head = tail = 0`, `readable = 0`, `writable = Capacity`, and the first
`try_receive` on the fresh channel returns empty and does not change the
state. -/
theorem create_spec [Inhabited α] (n : Nat) (d : α) :
    (create n d).isOpen = true ∧
    (create n d).head = 0 ∧
    (create n d).tail = 0 ∧
    (create n d).read = 0 ∧
    (create n d).write = n ∧
    (create n d).buffer.length = n ∧
    tryReceive (create n d) = (none, create n d) :=
  ⟨rfl, rfl, rfl, rfl, rfl, List.length_replicate n d, rfl⟩

/-- C9: moving a handle copies the internal pointer to the new handle, nulls
the donor, and leaves the shared state untouched; `close()` on the spent
handle (hence its destructor too) is a no-op, and the new handle's `close()`
behaves exactly as the original handle's. -/
theorem move_spent_close_noop (s : ChannelState α) (h : Bool) :
    (moveReceiver h s).2 = s ∧
    (moveSender h s).2 = s ∧
    (moveReceiver h s).1.1 = h ∧
    (moveReceiver h s).1.2 = false ∧
    (moveSender h s).1.1 = h ∧
    (moveSender h s).1.2 = false ∧
    closeReceiver (moveReceiver h s).1.2 s = s ∧
    closeSender (moveSender h s).1.2 s = s ∧
    (closeReceiver (moveReceiver h s).1.2 s).isOpen = s.isOpen ∧
    closeReceiver (moveReceiver h s).1.1 s = closeReceiver h s ∧
    closeSender (moveSender h s).1.1 s = closeSender h s :=
  ⟨rfl, rfl, rfl, rfl, rfl, rfl, rfl, rfl, rfl, rfl, rfl⟩

/-- C1: counterexample evaluation.  On a channel of Capacity 2, the enabled
interleaving `try_send 5; try_receive` consists of two complete successful
operations, yet afterwards `read + write = 1 ≠ 2`: the successful
`try_receive` decrements the readable counter without releasing a writable
slot, so the claimed invariant `readable + writable = Capacity` fails. -/
theorem counter_sum_violated :
    (create 2 (0 : Nat)).read + (create 2 (0 : Nat)).write = 2 ∧
    enabled (create 2 (0 : Nat)) [ChanOp.trySend 5, ChanOp.tryReceive] = true ∧
    (runOps (create 2 (0 : Nat)) [ChanOp.trySend 5, ChanOp.tryReceive]).2.1 = [5] ∧
    (runOps (create 2 (0 : Nat)) [ChanOp.trySend 5, ChanOp.tryReceive]).2.2 = [5] ∧
    (runOps (create 2 (0 : Nat)) [ChanOp.trySend 5, ChanOp.tryReceive]).1.read +
      (runOps (create 2 (0 : Nat)) [ChanOp.trySend 5, ChanOp.tryReceive]).1.write = 1 := by
  decide

/-- C2: counterexample evaluation.  On a channel of Capacity 2 holding one
element, `try_receive` succeeds: it decrements `read` (1 to 0), returns the
value at `head`, and advances `head` to `(head + 1) % 2 = 1` — but it leaves
`write` at 1 instead of incrementing it to 2: the writable counter is never
released on the `try_receive` path. -/
theorem tryReceive_write_not_released :
    (trySend 5 (create 2 (0 : Nat))).1 = true ∧
    ((trySend 5 (create 2 (0 : Nat))).2).read = 1 ∧
    ((trySend 5 (create 2 (0 : Nat))).2).write = 1 ∧
    (tryReceive ((trySend 5 (create 2 (0 : Nat))).2)).1 = some 5 ∧
    ((tryReceive ((trySend 5 (create 2 (0 : Nat))).2)).2).read = 0 ∧
    ((tryReceive ((trySend 5 (create 2 (0 : Nat))).2)).2).head = 1 ∧
    ((tryReceive ((trySend 5 (create 2 (0 : Nat))).2)).2).write = 1 := by
  decide

/-- C3: `try_send v` returns `false` and leaves the whole shared state
unchanged exactly when the channel is closed or the writable counter is zero;
otherwise it returns `true`, stores `v` at index `tail`, advances `tail` to
`(tail + 1) mod Capacity` (the buffer length), increments the readable
counter, and decrements the writable counter, leaving the open flag and
`head` unchanged. -/
theorem trySend_spec [Inhabited α] (s : ChannelState α) (v : α) :
    trySend v s =
      if s.isOpen = false ∨ s.write = 0 then (false, s)
      else (true, { s with buffer := s.buffer.set s.tail v,
                           tail := (s.tail + 1) % s.buffer.length,
                           read := s.read + 1,
                           write := s.write - 1 }) := by
  by_cases ho : s.isOpen
  · by_cases hw : s.write = 0
    · simp [trySend, ho, hw]
    · simp [trySend, writeTail, ho, hw]
  · have hf : s.isOpen = false := by simpa using ho
    simp [trySend, hf]

namespace Channel

variable {α : Type}

theorem trySend_snd_cases [Inhabited α] (v : α) (s : ChannelState α) :
    (trySend v s).2 = s ∨ (trySend v s).2 = send v s := by
  rw [trySend_eq]; split
  · exact Or.inl rfl
  · exact Or.inr rfl

theorem tryReceive_snd_cases [Inhabited α] (s : ChannelState α) :
    (tryReceive s).2 = s ∨
    (tryReceive s).2 = ⟨s.isOpen, (s.head + 1) % s.buffer.length, s.tail,
      s.buffer, s.read - 1, s.write⟩ := by
  rw [tryReceive_eq]; split
  · exact Or.inl rfl
  · exact Or.inr rfl

theorem runOps_bounds [Inhabited α] :
    ∀ (ops : List (ChanOp α)) (s : ChannelState α) (n : Nat), 0 < n →
      s.buffer.length = n → s.head < n → s.tail < n →
      ((runOps s ops).1.buffer.length = n ∧
        (runOps s ops).1.head < n ∧ (runOps s ops).1.tail < n) := by
  intro ops
  induction ops with
  | nil => intro s n _ hl hh ht; exact ⟨hl, hh, ht⟩
  | cons op rest ih =>
    intro s n hn hl hh ht
    cases op with
    | send v =>
        simp only [runOps]
        refine ih (send v s) n hn ?_ ?_ ?_
        · simpa [send_eq, List.length_set] using hl
        · simpa [send_eq] using hh
        · simp only [send_eq, hl]
          exact Nat.mod_lt _ hn
    | trySend v =>
        simp only [runOps]
        rcases trySend_snd_cases v s with hc | hc <;> rw [hc]
        · exact ih s n hn hl hh ht
        · refine ih (send v s) n hn ?_ ?_ ?_
          · simpa [send_eq, List.length_set] using hl
          · simpa [send_eq] using hh
          · simp only [send_eq, hl]
            exact Nat.mod_lt _ hn
    | receive =>
        simp only [runOps]
        refine ih (receive s).2 n hn ?_ ?_ ?_
        · simpa [receive_eq] using hl
        · simp only [receive_eq, hl]
          exact Nat.mod_lt _ hn
        · simpa [receive_eq] using ht
    | tryReceive =>
        simp only [runOps]
        rcases tryReceive_snd_cases s with hc | hc <;> rw [hc]
        · exact ih s n hn hl hh ht
        · refine ih _ n hn hl ?_ ht
          simp only [hl]
          exact Nat.mod_lt _ hn
    | close =>
        simp only [runOps]
        exact ih (closeState s) n hn hl hh ht

end Channel

/-- C10: starting from `create n d` (Capacity `n ≥ 1`), after any sequence
of complete operations the indices satisfy `head < n` and `tail < n` while
the buffer keeps length `n`, so the accesses `buffer[head]` (in `getHead`)
and `buffer[tail]` (in `writeTail`) performed by every send or receive
operation are within the bounds of the fixed-size array. -/
theorem head_tail_in_bounds [Inhabited α] (n : Nat) (hn : 0 < n) (d : α)
    (ops : List (ChanOp α)) :
    (runOps (create n d) ops).1.head < n ∧
    (runOps (create n d) ops).1.tail < n ∧
    (runOps (create n d) ops).1.buffer.length = n := by
  have h := runOps_bounds ops (create n d) n hn
    (by simp [create]) hn hn
  exact ⟨h.2.1, h.2.2, h.1⟩

/-- C10 witness: Capacity 1, running a receive on the fresh channel. -/
theorem head_tail_in_bounds_witness :
    0 < 1 ∧
    ((runOps (create 1 (0 : Nat)) [ChanOp.receive]).1.head < 1 ∧
      (runOps (create 1 (0 : Nat)) [ChanOp.receive]).1.tail < 1 ∧
      (runOps (create 1 (0 : Nat)) [ChanOp.receive]).1.buffer.length = 1) :=
  ⟨by decide, head_tail_in_bounds 1 (by decide) 0 [ChanOp.receive]⟩

namespace Channel

variable {α : Type}

@[simp] theorem send_head [Inhabited α] (v : α) (s : ChannelState α) :
    (send v s).head = s.head := rfl

@[simp] theorem send_tail [Inhabited α] (v : α) (s : ChannelState α) :
    (send v s).tail = (s.tail + 1) % s.buffer.length := rfl

@[simp] theorem send_buffer [Inhabited α] (v : α) (s : ChannelState α) :
    (send v s).buffer = s.buffer.set s.tail v := rfl

@[simp] theorem send_read [Inhabited α] (v : α) (s : ChannelState α) :
    (send v s).read = s.read + 1 := rfl

@[simp] theorem send_write [Inhabited α] (v : α) (s : ChannelState α) :
    (send v s).write = s.write - 1 := rfl

theorem receive_val [Inhabited α] (s : ChannelState α) :
    (receive s).1 = s.buffer.getD s.head default := rfl

theorem trySend_success_eq [Inhabited α] (v : α) (s : ChannelState α)
    (ho : s.isOpen = true) (hw : s.write ≠ 0) :
    trySend v s = (true, send v s) := by
  rw [trySend_eq, ho]; simp [hw]

theorem trySend_fail_eq [Inhabited α] (v : α) (s : ChannelState α)
    (h : s.isOpen = false ∨ s.write = 0) :
    trySend v s = (false, s) := by
  rw [trySend_eq]
  rcases h with h | h <;> simp [h]

theorem tryReceive_success_eq [Inhabited α] (s : ChannelState α)
    (ho : s.isOpen = true) (hr : s.read ≠ 0) :
    tryReceive s = (some (s.buffer.getD s.head default),
      ⟨s.isOpen, (s.head + 1) % s.buffer.length, s.tail, s.buffer,
        s.read - 1, s.write⟩) := by
  rw [tryReceive_eq]; simp [ho, hr]

theorem tryReceive_fail_eq [Inhabited α] (s : ChannelState α)
    (h : s.isOpen = false ∨ s.read = 0) :
    tryReceive s = (none, s) := by
  rw [tryReceive_eq]
  rcases h with h | h <;> simp [h]

theorem getD_set_self (l : List α) (i : Nat) (v d : α) (h : i < l.length) :
    (l.set i v).getD i d = v := by
  simp [List.getD_eq_getElem?_getD, List.getElem?_set, h]

theorem getD_set_ne (l : List α) (i j : Nat) (v d : α) (h : i ≠ j) :
    (l.set i v).getD j d = l.getD j d := by
  simp [List.getD_eq_getElem?_getD, List.getElem?_set, h]

theorem getD_concat_length (l : List α) (v d : α) :
    (l ++ [v]).getD l.length d = v := by
  simp [List.getD_eq_getElem?_getD, List.getElem?_concat_length]

theorem take_succ_getD (l : List α) (k : Nat) (d : α) (hk : k < l.length) :
    l.take (k + 1) = l.take k ++ [l.getD k d] := by
  rw [List.take_succ]
  simp [List.getD_eq_getElem?_getD, List.getElem?_eq_getElem hk]

/-- The reachability invariant tying a channel state to the lists of values
enqueued so far (`sent`) and dequeued so far (`rcvd`): the indices are the
operation counts modulo the capacity `n`, the readable counter is the number
of enqueued-but-not-yet-dequeued values, the unread segment of the buffer
holds exactly the pending values in FIFO positions, and what was received is
a prefix of what was sent.  Because the `try_receive` path never releases the
writable semaphore, only `read + write ≤ n` holds, not equality. -/
structure ChanInv [Inhabited α] (n : Nat) (s : ChannelState α)
    (sent rcvd : List α) : Prop where
  hlen : s.buffer.length = n
  hhead : s.head = rcvd.length % n
  htail : s.tail = sent.length % n
  hread : s.read = sent.length - rcvd.length
  hle : rcvd.length ≤ sent.length
  hrw : s.read + s.write ≤ n
  hbuf : ∀ i, i < s.read →
    s.buffer.getD ((s.head + i) % n) default = sent.getD (rcvd.length + i) default
  hrcvd : rcvd = sent.take rcvd.length

theorem inv_create [Inhabited α] (n : Nat) (d : α) :
    ChanInv n (create n d) [] [] := by
  refine ⟨List.length_replicate n d, (Nat.zero_mod n).symm, (Nat.zero_mod n).symm,
    rfl, Nat.le_refl 0, Nat.le_of_eq (Nat.zero_add n), ?_, rfl⟩
  intro i hi
  exact absurd hi (Nat.not_lt_zero i)

theorem inv_send [Inhabited α] {n : Nat} (hn : 0 < n) {s : ChannelState α}
    {sent rcvd : List α} (h : ChanInv n s sent rcvd) (hw : 0 < s.write) (v : α) :
    ChanInv n (send v s) (sent ++ [v]) rcvd := by
  obtain ⟨hlen, hhead, htail, hread, hle, hrw, hbuf, hrcvd⟩ := h
  have hreadlt : s.read < n := by omega
  have hsl : sent.length = rcvd.length + s.read := by omega
  refine ⟨?_, ?_, ?_, ?_, ?_, ?_, ?_, ?_⟩
  · rw [send_buffer, List.length_set]; exact hlen
  · rw [send_head]; exact hhead
  · rw [send_tail, hlen, htail, Nat.mod_add_mod, List.length_append,
      List.length_singleton]
  · rw [send_read, List.length_append, List.length_singleton]; omega
  · rw [List.length_append, List.length_singleton]; omega
  · rw [send_read, send_write]; omega
  · intro i hi
    rw [send_read] at hi
    rw [send_buffer, send_head]
    by_cases hcase : i = s.read
    · subst hcase
      have hidx : (s.head + s.read) % n = s.tail := by
        rw [hhead, htail, Nat.mod_add_mod, hsl]
      have hrhs : rcvd.length + s.read = sent.length := hsl.symm
      rw [hidx, hrhs, getD_concat_length]
      have htl : s.tail < s.buffer.length := by
        rw [hlen, htail]; exact Nat.mod_lt _ hn
      exact getD_set_self s.buffer s.tail v default htl
    · have hi' : i < s.read := by omega
      have hne : s.tail ≠ (s.head + i) % n := by
        intro heq
        rw [htail, hhead, Nat.mod_add_mod] at heq
        have h1 : (rcvd.length + s.read) % n = (rcvd.length + i) % n := by
          rw [← hsl]; exact heq
        have h2 : s.read % n = i % n := Nat.ModEq.add_left_cancel' rcvd.length h1
        rw [Nat.mod_eq_of_lt hreadlt, Nat.mod_eq_of_lt (by omega : i < n)] at h2
        omega
      rw [getD_set_ne _ _ _ _ _ hne,
        List.getD_append sent [v] default _ (by omega : rcvd.length + i < sent.length)]
      exact hbuf i hi'
  · rw [List.take_append_of_le_length hle]
    exact hrcvd

theorem inv_receive_core [Inhabited α] {n : Nat} (hn : 0 < n) {s : ChannelState α}
    {sent rcvd : List α} (h : ChanInv n s sent rcvd) (hr : 0 < s.read)
    (w' : Nat) (hw' : s.read - 1 + w' ≤ n) :
    (receive s).1 = sent.getD rcvd.length default ∧
    ChanInv n ⟨s.isOpen, (s.head + 1) % s.buffer.length, s.tail, s.buffer,
        s.read - 1, w'⟩
      sent (rcvd ++ [sent.getD rcvd.length default]) := by
  obtain ⟨hlen, hhead, htail, hread, hle, hrw, hbuf, hrcvd⟩ := h
  have hlt : rcvd.length < sent.length := by omega
  have hh : s.head % n = s.head :=
    Nat.mod_eq_of_lt (by rw [hhead]; exact Nat.mod_lt _ hn)
  have hval : (receive s).1 = sent.getD rcvd.length default := by
    rw [receive_val]
    have h0 := hbuf 0 hr
    rw [Nat.add_zero, hh, Nat.add_zero] at h0
    exact h0
  refine ⟨hval, ?_, ?_, ?_, ?_, ?_, ?_, ?_, ?_⟩
  · exact hlen
  · show (s.head + 1) % s.buffer.length
        = (rcvd ++ [sent.getD rcvd.length default]).length % n
    rw [hlen, hhead, Nat.mod_add_mod, List.length_append, List.length_singleton]
  · exact htail
  · show s.read - 1 = sent.length - (rcvd ++ [sent.getD rcvd.length default]).length
    rw [List.length_append, List.length_singleton]; omega
  · show (rcvd ++ [sent.getD rcvd.length default]).length ≤ sent.length
    rw [List.length_append, List.length_singleton]; omega
  · exact hw'
  · intro i hi
    have hi' : i < s.read - 1 := hi
    show s.buffer.getD (((s.head + 1) % s.buffer.length + i) % n) default
        = sent.getD ((rcvd ++ [sent.getD rcvd.length default]).length + i) default
    rw [hlen]
    have hidx : ((s.head + 1) % n + i) % n = (s.head + (i + 1)) % n := by
      rw [Nat.mod_add_mod]
      have : s.head + 1 + i = s.head + (i + 1) := by omega
      rw [this]
    rw [hidx, List.length_append, List.length_singleton]
    have hrhs : rcvd.length + 1 + i = rcvd.length + (i + 1) := by omega
    rw [hrhs]
    exact hbuf (i + 1) (by omega)
  · show rcvd ++ [sent.getD rcvd.length default]
        = sent.take ((rcvd ++ [sent.getD rcvd.length default]).length)
    rw [List.length_append, List.length_singleton,
      take_succ_getD sent rcvd.length default hlt, ← hrcvd]

theorem runOps_inv [Inhabited α] (n : Nat) (hn : 0 < n) :
    ∀ (ops : List (ChanOp α)) (s : ChannelState α) (sent rcvd : List α),
      ChanInv n s sent rcvd → enabled s ops = true →
      ChanInv n (runOps s ops).1
        (sent ++ (runOps s ops).2.1) (rcvd ++ (runOps s ops).2.2) := by
  intro ops
  induction ops with
  | nil =>
      intro s sent rcvd hinv _
      simpa [runOps] using hinv
  | cons op rest ih =>
      intro s sent rcvd hinv hen
      cases op with
      | send v =>
          simp only [enabled, Bool.and_eq_true, decide_eq_true_eq] at hen
          obtain ⟨hw, hen'⟩ := hen
          have h2 := ih (send v s) (sent ++ [v]) rcvd (inv_send hn hinv hw v) hen'
          simpa [runOps, List.append_assoc] using h2
      | trySend v =>
          simp only [enabled] at hen
          by_cases hc : s.isOpen = true ∧ s.write ≠ 0
          · obtain ⟨ho, hw⟩ := hc
            have heq := trySend_success_eq v s ho hw
            have hsnd : (trySend v s).2 = send v s := by rw [heq]
            have hfst : (trySend v s).1 = true := by rw [heq]
            rw [hsnd] at hen
            have h2 := ih (send v s) (sent ++ [v]) rcvd
              (inv_send hn hinv (Nat.pos_of_ne_zero hw) v) hen
            simpa [runOps, hfst, hsnd, List.append_assoc] using h2
          · have hfail : trySend v s = (false, s) := by
              refine trySend_fail_eq v s ?_
              rcases not_and_or.mp hc with h | h
              · exact Or.inl (by simpa using h)
              · exact Or.inr (by simpa using h)
            rw [hfail] at hen
            have h2 := ih s sent rcvd hinv hen
            simpa [runOps, hfail] using h2
      | receive =>
          simp only [enabled, Bool.and_eq_true, decide_eq_true_eq] at hen
          obtain ⟨hr, hen'⟩ := hen
          have core := inv_receive_core hn hinv hr (s.write + 1)
            (by have := hinv.hrw; omega)
          have hstate : (receive s).2 = ⟨s.isOpen, (s.head + 1) % s.buffer.length,
              s.tail, s.buffer, s.read - 1, s.write + 1⟩ := by rw [receive_eq]
          have hval : (receive s).1 = sent.getD rcvd.length default := core.1
          have h2 := ih (receive s).2 sent (rcvd ++ [sent.getD rcvd.length default])
            (by rw [hstate]; exact core.2) hen'
          simpa [runOps, hval, List.append_assoc] using h2
      | tryReceive =>
          simp only [enabled] at hen
          by_cases hc : s.isOpen = true ∧ s.read ≠ 0
          · obtain ⟨ho, hr⟩ := hc
            have heq := tryReceive_success_eq s ho hr
            have hsnd : (tryReceive s).2 = ⟨s.isOpen, (s.head + 1) % s.buffer.length,
                s.tail, s.buffer, s.read - 1, s.write⟩ := by rw [heq]
            have hfst : (tryReceive s).1 = some (s.buffer.getD s.head default) := by
              rw [heq]
            have core := inv_receive_core hn hinv (Nat.pos_of_ne_zero hr) s.write
              (by have := hinv.hrw; omega)
            have hval : s.buffer.getD s.head default = sent.getD rcvd.length default :=
              core.1
            rw [hsnd] at hen
            have h2 := ih _ sent (rcvd ++ [sent.getD rcvd.length default]) core.2 hen
            have hval2 : s.buffer[s.head]?.getD default = sent[rcvd.length]?.getD default := by
              simpa [List.getD_eq_getElem?_getD] using hval
            simp only [runOps, hsnd, hfst]
            simpa [hval, hval2, List.append_assoc] using h2
          · have hfail : tryReceive s = (none, s) := by
              refine tryReceive_fail_eq s ?_
              rcases not_and_or.mp hc with h | h
              · exact Or.inl (by simpa using h)
              · exact Or.inr (by simpa using h)
            rw [hfail] at hen
            have h2 := ih s sent rcvd hinv hen
            simpa [runOps, hfail] using h2
      | close =>
          simp only [enabled] at hen
          have hinv' : ChanInv n (closeState s) sent rcvd := by
            obtain ⟨h1, h2, h3, h4, h5, h6, h7, h8⟩ := hinv
            exact ⟨h1, h2, h3, h4, h5, h6, h7, h8⟩
          have h2 := ih (closeState s) sent rcvd hinv' hen
          simpa [runOps] using h2

end Channel

/-- C4: FIFO delivery.  Starting from `create n d` (Capacity `n ≥ 1`), for any
enabled interleaving of complete operations, if the number of successful
receives (blocking `receive` or `try_receive` returning a value) equals the
number of values enqueued by successful sends (blocking `send` or `try_send`
returning `true`), then the receives yield exactly the enqueued values, in
the order they were enqueued — no loss, duplication, or reordering. -/
theorem fifo_order [Inhabited α] (n : Nat) (hn : 0 < n) (d : α)
    (ops : List (ChanOp α))
    (hen : enabled (create n d) ops = true)
    (hcount : (runOps (create n d) ops).2.2.length
      = (runOps (create n d) ops).2.1.length) :
    (runOps (create n d) ops).2.2 = (runOps (create n d) ops).2.1 := by
  have h := runOps_inv n hn ops (create n d) [] [] (inv_create n d) hen
  have h8 := h.hrcvd
  simp only [List.nil_append] at h8
  have h9 : (runOps (create n d) ops).2.2
      = ((runOps (create n d) ops).2.1).take ((runOps (create n d) ops).2.1.length) := by
    rw [← hcount]; exact h8
  simpa [List.take_length] using h9

/-- C4 witness: Capacity 2, trace `send 7; receive; try_send 9; try_receive`,
two successful sends and two successful receives. -/
theorem fifo_order_witness :
    0 < 2 ∧
    enabled (create 2 (0 : Nat))
      [ChanOp.send 7, ChanOp.receive, ChanOp.trySend 9, ChanOp.tryReceive] = true ∧
    (runOps (create 2 (0 : Nat))
      [ChanOp.send 7, ChanOp.receive, ChanOp.trySend 9, ChanOp.tryReceive]).2.2.length
      = (runOps (create 2 (0 : Nat))
      [ChanOp.send 7, ChanOp.receive, ChanOp.trySend 9, ChanOp.tryReceive]).2.1.length ∧
    (runOps (create 2 (0 : Nat))
      [ChanOp.send 7, ChanOp.receive, ChanOp.trySend 9, ChanOp.tryReceive]).2.2
      = (runOps (create 2 (0 : Nat))
      [ChanOp.send 7, ChanOp.receive, ChanOp.trySend 9, ChanOp.tryReceive]).2.1 :=
  ⟨by decide, by decide, by decide,
    fifo_order 2 (by decide) 0
      [ChanOp.send 7, ChanOp.receive, ChanOp.trySend 9, ChanOp.tryReceive]
      (by decide) (by decide)⟩

/-- C7: round trip.  In any state reachable from `create n d` by an enabled
interleaving of complete operations that is open, has an empty buffer
(`read = 0`) and at least one writable slot (`write ≥ 1`), `try_send x`
returns `true` and an immediately following `try_receive` returns `x`. -/
theorem roundTrip [Inhabited α] (n : Nat) (hn : 0 < n) (d x : α)
    (ops : List (ChanOp α))
    (hen : enabled (create n d) ops = true)
    (ho : (runOps (create n d) ops).1.isOpen = true)
    (hr : (runOps (create n d) ops).1.read = 0)
    (hw : 0 < (runOps (create n d) ops).1.write) :
    (trySend x (runOps (create n d) ops).1).1 = true ∧
    (tryReceive (trySend x (runOps (create n d) ops).1).2).1 = some x := by
  have h := runOps_inv n hn ops (create n d) [] [] (inv_create n d) hen
  obtain ⟨hlen, hhead, htail, hread, hle, hrw, hbuf, hrcvd⟩ := h
  simp only [List.nil_append] at hlen hhead htail hread hle hrw hbuf hrcvd
  set s := (runOps (create n d) ops).1 with hs
  have hlens : ((runOps (create n d) ops).2.2).length
      = ((runOps (create n d) ops).2.1).length := by omega
  have hht : s.head = s.tail := by rw [hhead, htail, hlens]
  have hwne : s.write ≠ 0 := by omega
  have hsucc := trySend_success_eq x s ho hwne
  have htl : s.tail < s.buffer.length := by
    rw [hlen, htail]; exact Nat.mod_lt _ hn
  constructor
  · rw [hsucc]
  · rw [hsucc]
    have ho2 : (send x s).isOpen = true := by rw [isOpen_send]; exact ho
    have hr2 : (send x s).read ≠ 0 := by rw [send_read]; omega
    rw [tryReceive_success_eq (send x s) ho2 hr2]
    simp only [send_buffer, send_head]
    rw [hht, getD_set_self s.buffer s.tail x default htl]

/-- C7 witness: the fresh channel of Capacity 2 (empty trace), sending
and then receiving the value 9. -/
theorem roundTrip_witness :
    0 < 2 ∧
    enabled (create 2 (0 : Nat)) ([] : List (ChanOp Nat)) = true ∧
    (runOps (create 2 (0 : Nat)) ([] : List (ChanOp Nat))).1.isOpen = true ∧
    (runOps (create 2 (0 : Nat)) ([] : List (ChanOp Nat))).1.read = 0 ∧
    0 < (runOps (create 2 (0 : Nat)) ([] : List (ChanOp Nat))).1.write ∧
    ((trySend 9 (runOps (create 2 (0 : Nat)) ([] : List (ChanOp Nat))).1).1 = true ∧
      (tryReceive (trySend 9 (runOps (create 2 (0 : Nat))
        ([] : List (ChanOp Nat))).1).2).1 = some 9) :=
  ⟨by decide, by decide, by decide, by decide, by decide,
    roundTrip 2 (by decide) 0 9 [] (by decide) (by decide) (by decide) (by decide)⟩
